import Mathlib

/-
  Shallow embedding of the msccl-leaderboard benchmark harness (src/bench.py).

  Strings are modelled as Lean strings; the character-level operations of the
  Python code (str.split, str.startswith, str.endswith, str.upper, str.lower,
  str.strip, the regular expression used by parse_test_log) are modelled as
  executable functions over the underlying character lists.  The regex
  character classes are modelled over the ASCII ranges that appear in the
  benchmark logs (the Python classes additionally accept some non-ASCII
  code points, which never occur in the data this tool handles).
-/

/-! ## Character classes and basic Python string operations -/

/-- Whitespace class of the Python regex and of str.split / str.strip. -/
def isPySpace (c : Char) : Bool :=
  c == ' ' || c == '\t' || c == '\n' || c == '\r' || c == '\x0b' || c == '\x0c'

/-- Digit class of the Python regex (ASCII range). -/
def isPyDigit (c : Char) : Bool :=
  c.isDigit

/-- Auxiliary for pySplit: accumulates the current token (reversed). -/
def pySplitAux : List Char → List Char → List String
  | [], acc => if acc.isEmpty then [] else [String.mk acc.reverse]
  | c :: cs, acc =>
    if isPySpace c then
      (if acc.isEmpty then [] else [String.mk acc.reverse]) ++ pySplitAux cs []
    else
      pySplitAux cs (c :: acc)

/-- Python str.split() with no argument: maximal runs of non-whitespace. -/
def pySplit (s : String) : List String :=
  pySplitAux s.data []

/-- Python str.startswith for plain strings. -/
def pyStartsWith (s pre : String) : Bool :=
  pre.data.isPrefixOf s.data

/-- Python str.endswith for plain strings. -/
def pyEndsWith (s suf : String) : Bool :=
  suf.data.isSuffixOf s.data

/-- Python str.upper restricted to the ASCII letters present in the logs. -/
def pyUpper (s : String) : String :=
  String.mk (s.data.map Char.toUpper)

/-- Python str.lower restricted to the ASCII letters present in the logs. -/
def pyLower (s : String) : String :=
  String.mk (s.data.map Char.toLower)

/-- Python str.strip() with no argument: drop leading and trailing whitespace. -/
def pyStrip (s : String) : String :=
  String.mk (((s.data.dropWhile isPySpace).reverse.dropWhile isPySpace).reverse)

/-- Python substring containment (the `in` operator on str). -/
def containsSub (needle : List Char) : List Char → Bool
  | [] => needle.isEmpty
  | c :: cs => needle.isPrefixOf (c :: cs) || containsSub needle cs

/-- Python `needle in s` on strings. -/
def pyContains (s needle : String) : Bool :=
  containsSub needle.data s.data

/-- Python int(...) on the decimal-literal strings this program feeds it
    (an optional minus sign followed by digits; other inputs raise ValueError,
    modelled as `none`). -/
def pyInt (s : String) : Option Int :=
  match s.data with
  | [] => none
  | '-' :: ds =>
    if !ds.isEmpty && ds.all isPyDigit then
      some (-(Int.ofNat (ds.foldl (fun acc c => 10 * acc + (c.toNat - 48)) 0)))
    else none
  | ds =>
    if !ds.isEmpty && ds.all isPyDigit then
      some (Int.ofNat (ds.foldl (fun acc c => 10 * acc + (c.toNat - 48)) 0))
    else none

/-- Auxiliary for splitLines: file contents to the list of its lines
    (Python readlines, with the trailing newline of each line dropped;
    none of the line consumers of bench.py distinguishes a kept newline). -/
def splitLinesAux : List Char → List Char → List String
  | [], acc => if acc.isEmpty then [] else [String.mk acc.reverse]
  | c :: cs, acc =>
    if c == '\n' then String.mk acc.reverse :: splitLinesAux cs []
    else splitLinesAux cs (c :: acc)

/-- Split file contents into lines. -/
def splitLines (s : String) : List String :=
  splitLinesAux s.data []

/-! ## Log Line Extractor (bench.py, parse_test_log, lines 421-445) -/

/-- The optional log-prefix tag of the parse_test_log regex. -/
def stdoutTag : List Char := "[1,0]<stdout>:".data

/-- Strip the optional prefix-tag group of the regex.  The regex engine can
    only succeed with the group consumed when the line starts with the tag
    (a bare match would need a digit or whitespace at the bracket), so the
    optional group is equivalent to this deterministic strip. -/
def stripTag (cs : List Char) : List Char :=
  if stdoutTag.isPrefixOf cs then cs.drop stdoutTag.length else cs

/-- Body of the regex of parse_test_log after the optional tag:
    whitespace*, digits+, whitespace+, digits+, whitespace+.
    The digit and whitespace classes are disjoint, so maximal munch is
    equivalent to the backtracking semantics. -/
def matchTwoInts (cs : List Char) : Bool :=
  let cs1 := cs.dropWhile isPySpace
  let d1 := cs1.takeWhile isPyDigit
  let cs2 := cs1.dropWhile isPyDigit
  let s1 := cs2.takeWhile isPySpace
  let cs3 := cs2.dropWhile isPySpace
  let d2 := cs3.takeWhile isPyDigit
  let cs4 := cs3.dropWhile isPyDigit
  let s2 := cs4.takeWhile isPySpace
  !d1.isEmpty && !s1.isEmpty && !d2.isEmpty && !s2.isEmpty

/-- Whether pattern.match succeeds on a line
    (regex (\[1,0\]<stdout>:)?\s*(\d+)\s+(\d+)\s+ anchored at the start). -/
def matchesDataLine (line : String) : Bool :=
  matchTwoInts (stripTag line.data)

/-- One extracted record of parse_test_log: the three strings taken from the
    whitespace-split of the line at indices 1, 6 and 10. -/
structure LogRecord where
  size : String
  oop : String
  ip : String
deriving DecidableEq

/-- Errors surfaced by the embedded program (each models a Python exception
    or an error-print-and-return path of bench.py). -/
inductive SegError where
  | noMpirun
  | notMpirun
  | configConflict (msg : String)
  | structural (msg : String)
  | indexError
deriving DecidableEq

inductive MainErr where
  | seg (e : SegError)
  | validation (np ngpus : String)
  | valueError
  | unsupportedAlgorithm (coll : String)
  | indexError
deriving DecidableEq

/-- lineArray[1], lineArray[6], lineArray[10] of bench.py line 443; a list
    shorter than 11 raises IndexError. -/
def extractRecord (line : String) : Except MainErr LogRecord :=
  let arr := pySplit line
  if h : 11 ≤ arr.length then
    .ok ⟨arr.get ⟨1, by omega⟩, arr.get ⟨6, by omega⟩, arr.get ⟨10, by omega⟩⟩
  else
    .error .indexError

/-- parse_test_log (bench.py lines 421-445) over the list of lines of the
    file: each line matching the pattern contributes one record, every other
    line is skipped. -/
def parse_test_log : List String → Except MainErr (List LogRecord)
  | [] => .ok []
  | l :: ls =>
    if matchesDataLine l then
      match extractRecord l with
      | .ok r => (parse_test_log ls).map (fun rs => r :: rs)
      | .error e => .error e
    else
      parse_test_log ls

/-- The literal data line of the spec (and of exampleOutput), without the
    log-prefix tag. -/
def specDataLine : String :=
  "        1024           256     float     sum      -1    75.18    0.01    0.03      0    78.30    0.01    0.02      0"

/-- The same line as it appears in the example output, with the tag. -/
def taggedDataLine : String :=
  "[1,0]<stdout>:" ++ specDataLine

/-! ## Claims about the Log Line Extractor -/

/-- C1: for the literal spec line without the log-prefix tag, parse_test_log
    yields exactly one record, but its fields are the whitespace-split tokens
    at indices 1, 6 and 10 of the bare line — the count column 256 and the
    two algbw columns 0.01 — not size=1024, out-of-place time=75.18 and
    in-place time=78.30 as the spec states; those values are produced only
    when the tag occupies token index 0, as the second conjunct shows. -/
theorem c1_parse_log_indexing :
    parse_test_log [specDataLine] = .ok [⟨"256", "0.01", "0.01"⟩] ∧
    parse_test_log [taggedDataLine] = .ok [⟨"1024", "75.18", "78.30"⟩] :=
  ⟨rfl, rfl⟩

/-- C9 counterexample: the single line "1 2 " matches the data-line pattern
    but splits into only two tokens, so parse_test_log raises IndexError
    rather than yielding a record or skipping the line. -/
theorem c9_counterexample :
    parse_test_log ["1 2 "] = .error MainErr.indexError := rfl

/-- C9 (amended): for every input whose pattern-matching lines all split into
    at least 11 whitespace-separated tokens, parse_test_log never errors:
    it yields exactly one record per matching line, silently skips every
    non-matching line, and yields the empty sequence when no line matches. -/
theorem c9_parse_total (lines : List String)
    (h : ∀ l ∈ lines, matchesDataLine l = true → 11 ≤ (pySplit l).length) :
    ∃ rs, parse_test_log lines = .ok rs ∧
      rs.length = (lines.filter (fun l => matchesDataLine l)).length := by
  induction lines with
  | nil => exact ⟨[], rfl, rfl⟩
  | cons l ls ih =>
    obtain ⟨rs, hrs, hlen⟩ := ih (fun x hx hm => h x (List.mem_cons_of_mem _ hx) hm)
    by_cases hm : matchesDataLine l = true
    · have hl : 11 ≤ (pySplit l).length := h l (List.mem_cons_self _ _) hm
      obtain ⟨r, hrec⟩ : ∃ r, extractRecord l = .ok r := by
        simp only [extractRecord]
        exact ⟨_, dif_pos hl⟩
      refine ⟨r :: rs, ?_, ?_⟩
      · simp only [parse_test_log, hm, if_true, hrec, hrs, Except.map]
      · simp [List.filter, hm, hlen]
    · have hm' : matchesDataLine l = false := by
        revert hm; cases matchesDataLine l <;> simp
      refine ⟨rs, ?_, ?_⟩
      · simp only [parse_test_log, hm', if_false, hrs, Bool.false_eq_true]
      · simp [List.filter, hm', hlen]

/-- C9 witness: a concrete input with one junk line and one matching line of
    12 tokens parses without error to a single record. -/
theorem c9_parse_total_witness :
    ∃ rs, parse_test_log ["hello", "1 2 3 4 5 6 7 8 9 10 11 12"] = .ok rs ∧
      rs.length =
        ((["hello", "1 2 3 4 5 6 7 8 9 10 11 12"]).filter
          (fun l => matchesDataLine l)).length :=
  c9_parse_total _ (by decide)

/-! ## Argument Segmenter (bench.py, main, lines 119-184) -/

/-- Suffix identifying the benchmark-binary anchor
    (NCCL_TESTS_SUFFIX, with the posix path separator). -/
def ncclTestsSuffix : String := "nccl-tests/build"

/-- Suffix identifying the optional helper launch script (NCCL_LAUNCH_SUFFIX). -/
def ncclLaunchSuffix : String := "launcher.sh"

/-- The error message printed for a preset MSCCL_XML_FILES variable
    (bench.py line 160). -/
def mscclXmlFilesMsg : String :=
  "Error: MSCCL_XML_FILES environment variable should not be set in the mpirun command line since the --directory argument will be used instead."

/-- The error message printed when the benchmark-binary anchor is missing
    (bench.py line 175). -/
def structuralMsg : String :=
  "Error: nccl-tests/build not found in command line arguments"

/-- The segmented command line produced by main (ncclLaunch is the empty
    string when no helper-script token was present, exactly as in the
    source). -/
structure Segments where
  mpirun : String
  mpirunArgs : List String
  npValue : Option String
  ncclLaunch : String
  ncclTests : String
  ncclTestsArgs : List String
deriving DecidableEq

/-- The scanning loop of bench.py lines 149-162: pop tokens into mpirun_args
    until a token ends with the tests or launcher suffix; a literal -np
    consumes the following token as np_value (replacing any earlier one);
    the pair -x MSCCL_XML_FILES=... aborts with the config-conflict error;
    a -np or -x with no following token raises IndexError.
    Returns (mpirun_args, np_value, unconsumed remainder). -/
def scanMpirunArgs : List String → List String → Option String →
    Except SegError (List String × Option String × List String)
  | [], acc, np => .ok (acc.reverse, np, [])
  | t :: rest, acc, np =>
    if pyEndsWith t ncclTestsSuffix || pyEndsWith t ncclLaunchSuffix then
      .ok (acc.reverse, np, t :: rest)
    else if t == "-np" then
      match rest with
      | [] => .error .indexError
      | v :: rest2 => scanMpirunArgs rest2 acc (some v)
    else if t == "-x" then
      match rest with
      | [] => .error .indexError
      | v :: _ =>
        if pyStartsWith v "MSCCL_XML_FILES=" then
          .error (.configConflict mscclXmlFilesMsg)
        else
          scanMpirunArgs rest (t :: acc) np
    else
      scanMpirunArgs rest (t :: acc) np

/-- Steps of bench.py lines 164-181 after the scan loop: pop an optional
    helper-script token ending in launcher.sh, then require a token ending in
    nccl-tests/build (else the structural error of line 175); the remaining
    tokens are the nccl-tests arguments. -/
def segmentAfterScan (mpirun : String) (args : List String) (np : Option String) :
    List String → Except SegError Segments
  | t :: t2 :: r2 =>
    if pyEndsWith t ncclLaunchSuffix then
      if pyEndsWith t2 ncclTestsSuffix then .ok ⟨mpirun, args, np, t, t2, r2⟩
      else .error (.structural structuralMsg)
    else
      if pyEndsWith t ncclTestsSuffix then .ok ⟨mpirun, args, np, "", t, t2 :: r2⟩
      else .error (.structural structuralMsg)
  | [t] =>
    if pyEndsWith t ncclLaunchSuffix then .error (.structural structuralMsg)
    else
      if pyEndsWith t ncclTestsSuffix then .ok ⟨mpirun, args, np, "", t, []⟩
      else .error (.structural structuralMsg)
  | [] => .error (.structural structuralMsg)

/-- Segmentation of the remainder of the argument vector, starting at the
    launcher anchor (bench.py lines 119-184).  The first token is popped as
    the mpirun command; the test-mode validation (line 140) requires it to
    end in "mpirun" (the run-mode validation is an OS executability check,
    outside the model).  The scan loop then consumes the launcher options,
    and the tail is split by segmentAfterScan. -/
def segmentArgs (remainder : List String) : Except SegError Segments :=
  match remainder with
  | [] => .error .noMpirun
  | mpirun :: rest =>
    if !pyEndsWith mpirun "mpirun" then .error .notMpirun
    else
      match scanMpirunArgs rest [] none with
      | .error e => .error e
      | .ok (args, np, rest2) => segmentAfterScan mpirun args np rest2

/-- Device-count validation of bench.py lines 230-234: a retained -np value
    must agree (as an integer) with the ngpus attribute of the descriptor;
    a non-integer value raises ValueError. -/
def npCheck (npValue : Option String) (ngpus : String) : Except MainErr Unit :=
  match npValue with
  | none => .ok ()
  | some v =>
    match pyInt v, pyInt ngpus with
    | some a, some b => if a ≠ b then .error (.validation v ngpus) else .ok ()
    | _, _ => .error .valueError

/-- The helper-script tokens contributed by a segmentation result: the
    launcher token when present, nothing when absent (no input token can be
    the empty string and end in "launcher.sh", so the encoding is faithful). -/
def launchTokens (segs : Segments) : List String :=
  if segs.ncclLaunch = "" then [] else [segs.ncclLaunch]

/-! ## Claims about -np extraction and validation -/

/-- C8: -np 16 with ngpus="16" segments and validates successfully (the pair
    is extracted from the launcher options and retained); -np 8 with
    ngpus="16" segments but fails the device-count validation with a
    ValidationError. -/
theorem c8_np_validation :
    segmentArgs ["mpirun", "-np", "16", "b/nccl-tests/build"] =
      .ok ⟨"mpirun", [], some "16", "", "b/nccl-tests/build", []⟩ ∧
    npCheck (some "16") "16" = .ok () ∧
    segmentArgs ["mpirun", "-np", "8", "b/nccl-tests/build"] =
      .ok ⟨"mpirun", [], some "8", "", "b/nccl-tests/build", []⟩ ∧
    npCheck (some "8") "16" = .error (.validation "8" "16") :=
  ⟨rfl, rfl, rfl, rfl⟩

/-- C2 counterexample: a remainder with two -np pairs segments successfully,
    but only the last -np value is retained and both pairs are removed, so no
    re-insertion of the single extracted pair into the (empty) launcher
    options can reproduce the original six-token sequence. -/
theorem c2_counterexample :
    segmentArgs ["mpirun", "-np", "4", "-np", "8", "b/nccl-tests/build"] =
      .ok ⟨"mpirun", [], some "8", "", "b/nccl-tests/build", []⟩ ∧
    ∀ A B : List String, A ++ B = ([] : List String) →
      "mpirun" :: (A ++ "-np" :: "8" :: B ++ ["b/nccl-tests/build"]) ≠
        ["mpirun", "-np", "4", "-np", "8", "b/nccl-tests/build"] := by
  refine ⟨rfl, ?_⟩
  intro A B hAB
  rcases List.append_eq_nil.mp hAB with ⟨hA, hB⟩
  subst hA; subst hB
  decide

/-- Unfolding lemma: the scan loop on an empty remainder. -/
theorem scan_nil (acc : List String) (np : Option String) :
    scanMpirunArgs [] acc np = .ok (acc.reverse, np, []) := rfl

/-- Unfolding lemma: the scan loop stops at a token ending in either suffix. -/
theorem scan_stop (t : String) (rest acc : List String) (np : Option String)
    (h : (pyEndsWith t ncclTestsSuffix || pyEndsWith t ncclLaunchSuffix) = true) :
    scanMpirunArgs (t :: rest) acc np = .ok (acc.reverse, np, t :: rest) := by
  rw [scanMpirunArgs.eq_def]
  simp [h]

/-- Unfolding lemma: a trailing -np raises IndexError. -/
theorem scan_np_last (acc : List String) (np : Option String) :
    scanMpirunArgs ["-np"] acc np = .error .indexError := by rfl

/-- Unfolding lemma: a -np pair is extracted and the scan continues. -/
theorem scan_np (v : String) (rest2 acc : List String) (np : Option String) :
    scanMpirunArgs ("-np" :: v :: rest2) acc np = scanMpirunArgs rest2 acc (some v) := by
  rw [scanMpirunArgs.eq_def]
  simp [show pyEndsWith "-np" ncclTestsSuffix = false from rfl,
        show pyEndsWith "-np" ncclLaunchSuffix = false from rfl]

/-- Unfolding lemma: a trailing -x raises IndexError. -/
theorem scan_x_last (acc : List String) (np : Option String) :
    scanMpirunArgs ["-x"] acc np = .error .indexError := by rfl

/-- Unfolding lemma: -x followed by a MSCCL_XML_FILES= assignment aborts. -/
theorem scan_x_conflict (v : String) (rest acc : List String) (np : Option String)
    (h : pyStartsWith v "MSCCL_XML_FILES=" = true) :
    scanMpirunArgs ("-x" :: v :: rest) acc np = .error (.configConflict mscclXmlFilesMsg) := by
  rw [scanMpirunArgs.eq_def]
  simp [h, show pyEndsWith "-x" ncclTestsSuffix = false from rfl,
        show pyEndsWith "-x" ncclLaunchSuffix = false from rfl]

/-- Unfolding lemma: -x with a harmless value is kept verbatim. -/
theorem scan_x_keep (v : String) (rest acc : List String) (np : Option String)
    (h : pyStartsWith v "MSCCL_XML_FILES=" = false) :
    scanMpirunArgs ("-x" :: v :: rest) acc np =
      scanMpirunArgs (v :: rest) ("-x" :: acc) np := by
  rw [scanMpirunArgs.eq_def]
  simp [h, show pyEndsWith "-x" ncclTestsSuffix = false from rfl,
        show pyEndsWith "-x" ncclLaunchSuffix = false from rfl]

/-- Unfolding lemma: any other token is kept verbatim. -/
theorem scan_keep (t : String) (rest acc : List String) (np : Option String)
    (h1 : (pyEndsWith t ncclTestsSuffix || pyEndsWith t ncclLaunchSuffix) = false)
    (h2 : t ≠ "-np") (h3 : t ≠ "-x") :
    scanMpirunArgs (t :: rest) acc np = scanMpirunArgs rest (t :: acc) np := by
  rw [scanMpirunArgs.eq_def]
  simp [h1, h2, h3]

/-- Scan-loop invariant for reconstruction: when the input contains at most
    one -np token, a successful scan either extracted nothing (and kept
    every consumed token in order) or extracted exactly one -np pair, and
    the input is the kept tokens with that pair re-inserted at its original
    position, followed by the unconsumed remainder. -/
theorem scanMpirunArgs_reconstruct (fuel : Nat) :
    ∀ (rest acc : List String) (np0 : Option String)
      (args : List String) (np : Option String) (rest2 : List String),
      rest.length ≤ fuel →
      rest.count "-np" ≤ 1 →
      scanMpirunArgs rest acc np0 = .ok (args, np, rest2) →
      (np = np0 ∧ ∃ mid, args = acc.reverse ++ mid ∧ rest = mid ++ rest2) ∨
      (∃ v A B, np = some v ∧ args = acc.reverse ++ A ++ B ∧
        rest = A ++ "-np" :: v :: (B ++ rest2)) := by
  induction fuel with
  | zero =>
    intro rest acc np0 args np rest2 hlen _ h
    have hnil : rest = [] := List.length_eq_zero.mp (Nat.le_zero.mp hlen)
    subst hnil
    rw [scan_nil] at h
    simp only [Except.ok.injEq, Prod.mk.injEq] at h
    obtain ⟨h1, h2, h3⟩ := h
    exact Or.inl ⟨h2.symm, [], by simp [h1], by simp [h3]⟩
  | succ n ih =>
    intro rest acc np0 args np rest2 hlen hcount h
    match rest with
    | [] =>
      rw [scan_nil] at h
      simp only [Except.ok.injEq, Prod.mk.injEq] at h
      obtain ⟨h1, h2, h3⟩ := h
      exact Or.inl ⟨h2.symm, [], by simp [h1], by simp [h3]⟩
    | t :: rest' =>
      by_cases hstop : (pyEndsWith t ncclTestsSuffix || pyEndsWith t ncclLaunchSuffix) = true
      · rw [scan_stop t rest' acc np0 hstop] at h
        simp only [Except.ok.injEq, Prod.mk.injEq] at h
        obtain ⟨h1, h2, h3⟩ := h
        exact Or.inl ⟨h2.symm, [], by simp [h1], by simp [h3]⟩
      · simp only [Bool.not_eq_true] at hstop
        by_cases hnp : t = "-np"
        · subst hnp
          match rest' with
          | [] =>
            rw [scan_np_last] at h
            exact Except.noConfusion h
          | v :: rest2' =>
            rw [scan_np] at h
            have hcount0 : rest2'.count "-np" = 0 := by
              have e1 : (("-np" : String) :: v :: rest2').count "-np" =
                  (v :: rest2').count "-np" + 1 := List.count_cons_self _ _
              have e2 : rest2'.count "-np" ≤ (v :: rest2').count "-np" :=
                List.Sublist.count_le (List.sublist_cons_self _ _) _
              omega
            have hlen' : rest2'.length ≤ n := by
              simp only [List.length_cons] at hlen
              omega
            rcases ih rest2' acc (some v) args np rest2 hlen' (by omega) h with
              ⟨hnpv, mid, hargs, hrest⟩ | ⟨v', A, B, hv', hargs, hrest⟩
            · exact Or.inr ⟨v, [], mid, hnpv, by simpa using hargs, by simp [hrest]⟩
            · exfalso
              have hmem : ("-np" : String) ∈ rest2' := by
                rw [hrest]
                exact List.mem_append_right _ (List.mem_cons_self _ _)
              exact (List.count_eq_zero.mp hcount0) hmem
        · by_cases hx : t = "-x"
          · subst hx
            match rest' with
            | [] =>
              rw [scan_x_last] at h
              exact Except.noConfusion h
            | v :: rest2' =>
              by_cases hv : pyStartsWith v "MSCCL_XML_FILES=" = true
              · rw [scan_x_conflict v rest2' acc np0 hv] at h
                exact Except.noConfusion h
              · simp only [Bool.not_eq_true] at hv
                rw [scan_x_keep v rest2' acc np0 hv] at h
                have hlen' : (v :: rest2').length ≤ n := by
                  simp only [List.length_cons] at hlen ⊢
                  omega
                have hcount' : (v :: rest2').count "-np" ≤ 1 :=
                  le_trans (List.Sublist.count_le (List.sublist_cons_self _ _) _) hcount
                rcases ih (v :: rest2') ("-x" :: acc) np0 args np rest2 hlen' hcount' h with
                  ⟨hnp0, mid, hargs, hrest⟩ | ⟨v', A, B, hv', hargs, hrest⟩
                · exact Or.inl ⟨hnp0, "-x" :: mid, by simpa using hargs, by simp [hrest]⟩
                · exact Or.inr ⟨v', "-x" :: A, B, hv', by simpa using hargs, by simp [hrest]⟩
          · rw [scan_keep t rest' acc np0 hstop hnp hx] at h
            have hlen' : rest'.length ≤ n := by
              simp only [List.length_cons] at hlen
              omega
            have hcount' : rest'.count "-np" ≤ 1 :=
              le_trans (List.Sublist.count_le (List.sublist_cons_self _ _) _) hcount
            rcases ih rest' (t :: acc) np0 args np rest2 hlen' hcount' h with
              ⟨hnp0, mid, hargs, hrest⟩ | ⟨v', A, B, hv', hargs, hrest⟩
            · exact Or.inl ⟨hnp0, t :: mid, by simpa using hargs, by simp [hrest]⟩
            · exact Or.inr ⟨v', t :: A, B, hv', by simpa using hargs, by simp [hrest]⟩

/-- Unfolding lemma for segmentArgs on a non-empty remainder. -/
theorem segmentArgs_cons (m : String) (rest : List String) :
    segmentArgs (m :: rest) =
      if !pyEndsWith m "mpirun" then .error .notMpirun
      else
        match scanMpirunArgs rest [] none with
        | .error e => .error e
        | .ok (args, np, rest2) => segmentAfterScan m args np rest2 := by
  rw [segmentArgs.eq_def]

/-- A successful tail split pops an optional helper token and the
    benchmark-binary token; the tail is recovered from the output fields. -/
theorem segmentAfterScan_ok_elim (m : String) (a : List String) (np : Option String)
    (rest2 : List String) (segs : Segments)
    (h : segmentAfterScan m a np rest2 = .ok segs) :
    segs.mpirun = m ∧ segs.mpirunArgs = a ∧ segs.npValue = np ∧
    rest2 = launchTokens segs ++ segs.ncclTests :: segs.ncclTestsArgs ∧
    pyEndsWith segs.ncclTests ncclTestsSuffix = true := by
  match rest2 with
  | [] => exact Except.noConfusion h
  | [t] =>
    by_cases h1 : pyEndsWith t ncclLaunchSuffix = true
    · simp [segmentAfterScan, h1] at h
    · simp only [Bool.not_eq_true] at h1
      by_cases h2 : pyEndsWith t ncclTestsSuffix = true
      · simp only [segmentAfterScan, h1, h2, Bool.false_eq_true, if_false, if_true] at h
        obtain rfl := (Except.ok.inj h).symm
        exact ⟨rfl, rfl, rfl, by simp [launchTokens], h2⟩
      · simp [segmentAfterScan, h1, h2] at h
  | t :: t2 :: r2 =>
    by_cases h1 : pyEndsWith t ncclLaunchSuffix = true
    · by_cases h2 : pyEndsWith t2 ncclTestsSuffix = true
      · simp only [segmentAfterScan, h1, h2, if_true] at h
        obtain rfl := (Except.ok.inj h).symm
        have ht : t ≠ "" := by
          intro he
          rw [he] at h1
          exact absurd h1 (by decide)
        exact ⟨rfl, rfl, rfl, by simp [launchTokens, ht], h2⟩
      · simp [segmentAfterScan, h1, h2] at h
    · simp only [Bool.not_eq_true] at h1
      by_cases h2 : pyEndsWith t ncclTestsSuffix = true
      · simp only [segmentAfterScan, h1, h2, Bool.false_eq_true, if_false, if_true] at h
        obtain rfl := (Except.ok.inj h).symm
        exact ⟨rfl, rfl, rfl, by simp [launchTokens], h2⟩
      · simp [segmentAfterScan, h1, h2] at h

/-- Characterization of a successful segmentation in terms of the scan loop. -/
theorem segmentArgs_ok_elim (toks : List String) (segs : Segments)
    (h : segmentArgs toks = .ok segs) :
    ∃ rest rest2,
      toks = segs.mpirun :: rest ∧
      pyEndsWith segs.mpirun "mpirun" = true ∧
      scanMpirunArgs rest [] none = .ok (segs.mpirunArgs, segs.npValue, rest2) ∧
      rest2 = launchTokens segs ++ segs.ncclTests :: segs.ncclTestsArgs ∧
      pyEndsWith segs.ncclTests ncclTestsSuffix = true := by
  match toks with
  | [] => exact Except.noConfusion h
  | m :: rest =>
    rw [segmentArgs_cons] at h
    by_cases hmp : pyEndsWith m "mpirun" = true
    · rw [hmp] at h
      simp only [Bool.not_true, Bool.false_eq_true, if_false] at h
      cases hscan : scanMpirunArgs rest [] none with
      | error e =>
        rw [hscan] at h
        simp at h
      | ok trip =>
        obtain ⟨args, np, rest2⟩ := trip
        rw [hscan] at h
        simp only at h
        obtain ⟨e1, e2, e3, e4, e5⟩ := segmentAfterScan_ok_elim m args np rest2 segs h
        refine ⟨rest, rest2, by rw [e1], by rw [e1]; exact hmp, ?_, e4, e5⟩
        rw [e2, e3]
        exact hscan
    · simp only [Bool.not_eq_true] at hmp
      rw [hmp] at h
      simp at h

/-- C2 (amended): for every token sequence that starts at the launcher
    anchor, contains at most one occurrence of the -np token, and on which
    segmentation succeeds, the original sequence is recovered by
    concatenating, in order: the launcher path, the launcher options with
    the extracted -np pair re-inserted at its original position (or with
    nothing inserted when no pair was extracted), the optional helper-script
    token, the benchmark-binary path, and the benchmark options.  (With two
    or more -np pairs the reconstruction fails: only the last value is
    retained, see the counterexample.) -/
theorem c2_segment_reconstruction (toks : List String) (segs : Segments)
    (hcount : toks.count "-np" ≤ 1)
    (h : segmentArgs toks = .ok segs) :
    (segs.npValue = none ∧
      segs.mpirun :: (segs.mpirunArgs ++ launchTokens segs ++
        segs.ncclTests :: segs.ncclTestsArgs) = toks) ∨
    (∃ v A B, segs.npValue = some v ∧ segs.mpirunArgs = A ++ B ∧
      segs.mpirun :: (A ++ "-np" :: v :: (B ++ launchTokens segs ++
        segs.ncclTests :: segs.ncclTestsArgs)) = toks) := by
  obtain ⟨rest, rest2, htoks, hmp, hscan, hrest2, htests⟩ := segmentArgs_ok_elim toks segs h
  have hcount' : rest.count "-np" ≤ 1 := by
    rw [htoks] at hcount
    exact le_trans (List.Sublist.count_le (List.sublist_cons_self _ _) _) hcount
  rcases scanMpirunArgs_reconstruct rest.length rest [] none segs.mpirunArgs segs.npValue
      rest2 le_rfl hcount' hscan with
    ⟨hnp, mid, hargs, hrest⟩ | ⟨v, A, B, hnp, hargs, hrest⟩
  · left
    refine ⟨hnp, ?_⟩
    rw [htoks, hrest, hrest2]
    simp only [List.reverse_nil, List.nil_append] at hargs
    rw [hargs]
    simp [List.append_assoc]
  · right
    refine ⟨v, A, B, hnp, by simpa using hargs, ?_⟩
    rw [htoks, hrest, hrest2]
    simp [List.append_assoc]

/-- C2 witness: a representative command line with one -np pair, a helper
    script and benchmark options reconstructs to itself. -/
theorem c2_segment_reconstruction_witness :
    (Segments.npValue ⟨"mpirun", ["-a"], some "16", "x/launcher.sh",
        "b/nccl-tests/build", ["-g", "1"]⟩ = none ∧
      "mpirun" :: (["-a"] ++
        launchTokens ⟨"mpirun", ["-a"], some "16", "x/launcher.sh",
          "b/nccl-tests/build", ["-g", "1"]⟩ ++
        "b/nccl-tests/build" :: ["-g", "1"]) =
        ["mpirun", "-a", "-np", "16", "x/launcher.sh", "b/nccl-tests/build", "-g", "1"]) ∨
    (∃ v A B, Segments.npValue ⟨"mpirun", ["-a"], some "16", "x/launcher.sh",
        "b/nccl-tests/build", ["-g", "1"]⟩ = some v ∧ ["-a"] = A ++ B ∧
      "mpirun" :: (A ++ "-np" :: v :: (B ++
        launchTokens ⟨"mpirun", ["-a"], some "16", "x/launcher.sh",
          "b/nccl-tests/build", ["-g", "1"]⟩ ++
        "b/nccl-tests/build" :: ["-g", "1"])) =
        ["mpirun", "-a", "-np", "16", "x/launcher.sh", "b/nccl-tests/build", "-g", "1"]) :=
  c2_segment_reconstruction
    ["mpirun", "-a", "-np", "16", "x/launcher.sh", "b/nccl-tests/build", "-g", "1"]
    ⟨"mpirun", ["-a"], some "16", "x/launcher.sh", "b/nccl-tests/build", ["-g", "1"]⟩
    (by decide) (by rfl)

/-- Adjacent-pair detector: some -x token immediately followed by a token
    presetting MSCCL_XML_FILES (the reserved-variable conflict of line 159). -/
def hasConflictPair : List String → Bool
  | t :: v :: rest =>
    (t == "-x" && pyStartsWith v "MSCCL_XML_FILES=") || hasConflictPair (v :: rest)
  | _ => false

/-- The tail of a conflict-free list is conflict-free. -/
theorem hasConflictPair_tail (x : String) (xs : List String)
    (h : hasConflictPair (x :: xs) = false) : hasConflictPair xs = false := by
  match xs with
  | [] => rfl
  | w :: ws =>
    simp only [hasConflictPair, Bool.or_eq_false_iff] at h
    exact h.2

/-- The head pair of a conflict-free list is not a conflict. -/
theorem hasConflictPair_head (x y : String) (ys : List String)
    (h : hasConflictPair (x :: y :: ys) = false) :
    (x == "-x" && pyStartsWith y "MSCCL_XML_FILES=") = false := by
  simp only [hasConflictPair, Bool.or_eq_false_iff] at h
  exact h.1

/-- getLast? commutes with dropping the head of a list of length at least
    two. -/
theorem getLast?_cons_cons_ne (x w : String) (ws : List String) (s : String)
    (h : (x :: w :: ws).getLast? ≠ some s) : (w :: ws).getLast? ≠ some s := by
  rwa [List.getLast?_cons_cons] at h

/-- Every token left unconsumed by a successful scan occurs in the scanned
    input. -/
theorem scan_rest2_mem (fuel : Nat) :
    ∀ (rest acc : List String) (np0 : Option String)
      (args : List String) (np : Option String) (rest2 : List String),
      rest.length ≤ fuel →
      scanMpirunArgs rest acc np0 = .ok (args, np, rest2) →
      ∀ t ∈ rest2, t ∈ rest := by
  induction fuel with
  | zero =>
    intro rest acc np0 args np rest2 hlen h
    have hnil : rest = [] := List.length_eq_zero.mp (Nat.le_zero.mp hlen)
    subst hnil
    rw [scan_nil] at h
    simp only [Except.ok.injEq, Prod.mk.injEq] at h
    rw [← h.2.2]
    intro t ht
    exact ht
  | succ n ih =>
    intro rest acc np0 args np rest2 hlen h
    match rest with
    | [] =>
      rw [scan_nil] at h
      simp only [Except.ok.injEq, Prod.mk.injEq] at h
      rw [← h.2.2]
      intro t ht
      exact ht
    | t0 :: rest' =>
      by_cases hstop : (pyEndsWith t0 ncclTestsSuffix || pyEndsWith t0 ncclLaunchSuffix) = true
      · rw [scan_stop t0 rest' acc np0 hstop] at h
        simp only [Except.ok.injEq, Prod.mk.injEq] at h
        rw [← h.2.2]
        intro t ht
        exact ht
      · simp only [Bool.not_eq_true] at hstop
        by_cases hnp : t0 = "-np"
        · subst hnp
          match rest' with
          | [] =>
            rw [scan_np_last] at h
            exact Except.noConfusion h
          | v :: rest2' =>
            rw [scan_np] at h
            intro t ht
            have := ih rest2' acc (some v) args np rest2
              (by simp only [List.length_cons] at hlen; omega) h t ht
            exact List.mem_cons_of_mem _ (List.mem_cons_of_mem _ this)
        · by_cases hx : t0 = "-x"
          · subst hx
            match rest' with
            | [] =>
              rw [scan_x_last] at h
              exact Except.noConfusion h
            | v :: rest2' =>
              by_cases hv : pyStartsWith v "MSCCL_XML_FILES=" = true
              · rw [scan_x_conflict v rest2' acc np0 hv] at h
                exact Except.noConfusion h
              · simp only [Bool.not_eq_true] at hv
                rw [scan_x_keep v rest2' acc np0 hv] at h
                intro t ht
                have := ih (v :: rest2') ("-x" :: acc) np0 args np rest2
                  (by simp only [List.length_cons] at hlen ⊢; omega) h t ht
                exact List.mem_cons_of_mem _ this
          · rw [scan_keep t0 rest' acc np0 hstop hnp hx] at h
            intro t ht
            have := ih rest' (t0 :: acc) np0 args np rest2
              (by simp only [List.length_cons] at hlen; omega) h t ht
            exact List.mem_cons_of_mem _ this

/-- When the input has no conflict pair and does not end in a dangling -np
    or -x, the scan loop always terminates successfully. -/
theorem scan_all_clear_ok (fuel : Nat) :
    ∀ (rest acc : List String) (np0 : Option String),
      rest.length ≤ fuel →
      hasConflictPair rest = false →
      rest.getLast? ≠ some "-np" →
      rest.getLast? ≠ some "-x" →
      ∃ args np rest2, scanMpirunArgs rest acc np0 = .ok (args, np, rest2) := by
  induction fuel with
  | zero =>
    intro rest acc np0 hlen _ _ _
    have hnil : rest = [] := List.length_eq_zero.mp (Nat.le_zero.mp hlen)
    subst hnil
    exact ⟨acc.reverse, np0, [], scan_nil acc np0⟩
  | succ n ih =>
    intro rest acc np0 hlen hcp hl1 hl2
    match rest with
    | [] => exact ⟨acc.reverse, np0, [], scan_nil acc np0⟩
    | t0 :: rest' =>
      by_cases hstop : (pyEndsWith t0 ncclTestsSuffix || pyEndsWith t0 ncclLaunchSuffix) = true
      · exact ⟨acc.reverse, np0, t0 :: rest', scan_stop t0 rest' acc np0 hstop⟩
      · simp only [Bool.not_eq_true] at hstop
        by_cases hnp : t0 = "-np"
        · subst hnp
          match rest' with
          | [] => exact absurd rfl hl1
          | v :: rest2' =>
            have hlen' : rest2'.length ≤ n := by
              simp only [List.length_cons] at hlen
              omega
            have hcp' : hasConflictPair rest2' = false :=
              hasConflictPair_tail _ _ (hasConflictPair_tail _ _ hcp)
            match rest2' with
            | [] =>
              obtain ⟨args, np, rest2, hok⟩ :=
                ih [] acc (some v) (by simp) rfl (by simp) (by simp)
              exact ⟨args, np, rest2, by rw [scan_np]; exact hok⟩
            | w :: ws =>
              obtain ⟨args, np, rest2, hok⟩ := ih (w :: ws) acc (some v) hlen' hcp'
                (getLast?_cons_cons_ne _ _ _ _ (getLast?_cons_cons_ne _ _ _ _ hl1))
                (getLast?_cons_cons_ne _ _ _ _ (getLast?_cons_cons_ne _ _ _ _ hl2))
              exact ⟨args, np, rest2, by rw [scan_np]; exact hok⟩
        · by_cases hx : t0 = "-x"
          · subst hx
            match rest' with
            | [] => exact absurd rfl hl2
            | v :: rest2' =>
              have hv : pyStartsWith v "MSCCL_XML_FILES=" = false := by
                have := hasConflictPair_head _ _ _ hcp
                simpa using this
              have hlen' : (v :: rest2').length ≤ n := by
                simp only [List.length_cons] at hlen ⊢
                omega
              obtain ⟨args, np, rest2, hok⟩ := ih (v :: rest2') ("-x" :: acc) np0 hlen'
                (hasConflictPair_tail _ _ hcp)
                (getLast?_cons_cons_ne _ _ _ _ hl1)
                (getLast?_cons_cons_ne _ _ _ _ hl2)
              exact ⟨args, np, rest2, by rw [scan_x_keep v rest2' acc np0 hv]; exact hok⟩
          · have hlen' : rest'.length ≤ n := by
              simp only [List.length_cons] at hlen
              omega
            match rest' with
            | [] =>
              obtain ⟨args, np, rest2, hok⟩ :=
                ih [] (t0 :: acc) np0 (by simp) rfl (by simp) (by simp)
              exact ⟨args, np, rest2, by rw [scan_keep t0 [] acc np0 hstop hnp hx]; exact hok⟩
            | w :: ws =>
              obtain ⟨args, np, rest2, hok⟩ := ih (w :: ws) (t0 :: acc) np0 hlen'
                (hasConflictPair_tail _ _ hcp)
                (getLast?_cons_cons_ne _ _ _ _ hl1)
                (getLast?_cons_cons_ne _ _ _ _ hl2)
              exact ⟨args, np, rest2,
                by rw [scan_keep t0 (w :: ws) acc np0 hstop hnp hx]; exact hok⟩

/-- When no unconsumed token ends with the benchmark-binary suffix, the tail
    split always reports the structural error of line 175. -/
theorem segmentAfterScan_no_tests (m : String) (a : List String) (np : Option String)
    (rest2 : List String)
    (h : ∀ t ∈ rest2, pyEndsWith t ncclTestsSuffix = false) :
    segmentAfterScan m a np rest2 = .error (.structural structuralMsg) := by
  match rest2 with
  | [] => rfl
  | [t] =>
    have ht := h t (List.mem_cons_self _ _)
    by_cases h1 : pyEndsWith t ncclLaunchSuffix = true
    · simp [segmentAfterScan, h1]
    · simp only [Bool.not_eq_true] at h1
      simp [segmentAfterScan, h1, ht]
  | t :: t2 :: r2 =>
    have ht := h t (List.mem_cons_self _ _)
    have ht2 := h t2 (List.mem_cons_of_mem _ (List.mem_cons_self _ _))
    by_cases h1 : pyEndsWith t ncclLaunchSuffix = true
    · simp [segmentAfterScan, h1, ht2]
    · simp only [Bool.not_eq_true] at h1
      simp [segmentAfterScan, h1, ht]

/-- C6 counterexample: the sequence contains no token ending with
    nccl-tests/build, but segmentation fails with ConfigConflictError (the
    reserved-variable pair is reached first), not with StructuralError. -/
theorem c6_counterexample :
    (∀ t ∈ ["mpirun", "-x", "MSCCL_XML_FILES=foo"],
      pyEndsWith t ncclTestsSuffix = false) ∧
    segmentArgs ["mpirun", "-x", "MSCCL_XML_FILES=foo"] =
      .error (.configConflict mscclXmlFilesMsg) ∧
    ∀ msg, SegError.configConflict mscclXmlFilesMsg ≠ SegError.structural msg :=
  ⟨by decide, rfl, fun _ h => SegError.noConfusion h⟩

/-- C6 (amended): for every remainder starting at a launcher anchor in which
    no token ends with the benchmark-binary suffix, segmentation never
    succeeds; and it fails specifically with the StructuralError of line 175
    provided the remainder also contains no adjacent -x MSCCL_XML_FILES=
    pair and does not end with a dangling -np or -x token (those inputs fail
    with ConfigConflictError or an uncaught IndexError instead). -/
theorem c6_missing_anchor_structural (m : String) (rest : List String)
    (hmp : pyEndsWith m "mpirun" = true)
    (hno : ∀ t ∈ m :: rest, pyEndsWith t ncclTestsSuffix = false) :
    (∀ segs, segmentArgs (m :: rest) ≠ .ok segs) ∧
    (hasConflictPair rest = false →
      rest.getLast? ≠ some "-np" →
      rest.getLast? ≠ some "-x" →
      segmentArgs (m :: rest) = .error (.structural structuralMsg)) := by
  constructor
  · intro segs hok
    obtain ⟨rest', rest2, htoks, _, hscan, hrest2, htests⟩ :=
      segmentArgs_ok_elim _ segs hok
    obtain ⟨hm, hrest⟩ := List.cons.inj htoks
    have hmem2 : segs.ncclTests ∈ rest2 := by
      rw [hrest2]
      exact List.mem_append_right _ (List.mem_cons_self _ _)
    have hmem : segs.ncclTests ∈ rest' :=
      scan_rest2_mem rest'.length rest' [] none segs.mpirunArgs segs.npValue rest2
        le_rfl hscan _ hmem2
    rw [← hrest] at hmem
    have := hno segs.ncclTests (List.mem_cons_of_mem _ hmem)
    rw [htests] at this
    exact Bool.noConfusion this
  · intro hcp hl1 hl2
    obtain ⟨args, np, rest2, hscan⟩ :=
      scan_all_clear_ok rest.length rest [] none le_rfl hcp hl1 hl2
    rw [segmentArgs_cons, hmp]
    simp only [Bool.not_true, Bool.false_eq_true, if_false]
    rw [hscan]
    simp only
    refine segmentAfterScan_no_tests m args np rest2 ?_
    intro t ht
    have hmem : t ∈ rest :=
      scan_rest2_mem rest.length rest [] none args np rest2 le_rfl hscan t ht
    exact hno t (List.mem_cons_of_mem _ hmem)

/-- C6 witness: the two-token remainder mpirun -a has no benchmark-binary
    anchor, no conflict pair and no dangling flag; segmentation fails
    structurally. -/
theorem c6_missing_anchor_structural_witness :
    (∀ segs, segmentArgs ["mpirun", "-a"] ≠ .ok segs) ∧
    (hasConflictPair ["-a"] = false →
      (["-a"] : List String).getLast? ≠ some "-np" →
      (["-a"] : List String).getLast? ≠ some "-x" →
      segmentArgs ["mpirun", "-a"] = .error (.structural structuralMsg)) :=
  c6_missing_anchor_structural "mpirun" ["-a"] (by decide) (by decide)

/-- C7 counterexample: the adjacent pair -x MSCCL_XML_FILES=foo occurs
    before the benchmark-binary anchor, but a -np immediately before it makes
    the scan consume the -x token as the -np value, so segmentation succeeds
    (with npValue "-x" and the assignment kept as a launcher option) instead
    of failing with ConfigConflictError. -/
theorem c7_counterexample :
    segmentArgs ["mpirun", "-np", "-x", "MSCCL_XML_FILES=foo", "b/nccl-tests/build"] =
      .ok ⟨"mpirun", ["MSCCL_XML_FILES=foo"], some "-x", "", "b/nccl-tests/build", []⟩ :=
  rfl

/-- Reaching a conflict pair: if every token before the pair is kept by the
    scan (no stop suffix, not a -np), the scan aborts with the
    config-conflict error. -/
theorem scan_reaches_conflict (fuel : Nat) :
    ∀ (pre acc : List String) (np0 : Option String) (v : String) (post : List String),
      pre.length ≤ fuel →
      (∀ t ∈ pre, pyEndsWith t ncclTestsSuffix = false ∧
        pyEndsWith t ncclLaunchSuffix = false ∧ t ≠ "-np") →
      pyStartsWith v "MSCCL_XML_FILES=" = true →
      scanMpirunArgs (pre ++ "-x" :: v :: post) acc np0 =
        .error (.configConflict mscclXmlFilesMsg) := by
  induction fuel with
  | zero =>
    intro pre acc np0 v post hlen _ hv
    have hnil : pre = [] := List.length_eq_zero.mp (Nat.le_zero.mp hlen)
    subst hnil
    exact scan_x_conflict v post acc np0 hv
  | succ n ih =>
    intro pre acc np0 v post hlen hpre hv
    match pre with
    | [] => exact scan_x_conflict v post acc np0 hv
    | t0 :: pre' =>
      obtain ⟨ht1, ht2, ht3⟩ := hpre t0 (List.mem_cons_self _ _)
      have hstop : (pyEndsWith t0 ncclTestsSuffix || pyEndsWith t0 ncclLaunchSuffix) = false := by
        rw [ht1, ht2]
        rfl
      have hlen' : pre'.length ≤ n := by
        simp only [List.length_cons] at hlen
        omega
      have hpre' : ∀ t ∈ pre', pyEndsWith t ncclTestsSuffix = false ∧
          pyEndsWith t ncclLaunchSuffix = false ∧ t ≠ "-np" :=
        fun t ht => hpre t (List.mem_cons_of_mem _ ht)
      by_cases hx : t0 = "-x"
      · subst hx
        match pre' with
        | [] =>
          rw [List.cons_append, List.nil_append,
            scan_x_keep "-x" (v :: post) acc np0 (by decide)]
          exact scan_x_conflict v post ("-x" :: acc) np0 hv
        | w :: pre'' =>
          by_cases hw : pyStartsWith w "MSCCL_XML_FILES=" = true
          · rw [List.cons_append, List.cons_append,
              scan_x_conflict w (pre'' ++ "-x" :: v :: post) acc np0 hw]
          · simp only [Bool.not_eq_true] at hw
            rw [List.cons_append, List.cons_append,
              scan_x_keep w (pre'' ++ "-x" :: v :: post) acc np0 hw]
            exact ih (w :: pre'') ("-x" :: acc) np0 v post hlen' hpre' hv
      · rw [List.cons_append, scan_keep t0 (pre' ++ "-x" :: v :: post) acc np0 hstop ht3 hx]
        exact ih pre' (t0 :: acc) np0 v post hlen' hpre' hv

/-- C7 (amended): the pair -x MSCCL_XML_FILES=... anywhere before the
    benchmark-binary anchor makes segmentation fail with ConfigConflictError
    whose message contains MSCCL_XML_FILES, provided the pair is actually
    reached by the scan: no earlier token ends with the benchmark-binary or
    helper-script suffix and no earlier token is a -np (a -np immediately
    before the pair swallows the -x as its value, see the counterexample). -/
theorem c7_config_conflict (m v : String) (pre post : List String)
    (hmp : pyEndsWith m "mpirun" = true)
    (hv : pyStartsWith v "MSCCL_XML_FILES=" = true)
    (hpre : ∀ t ∈ pre, pyEndsWith t ncclTestsSuffix = false ∧
      pyEndsWith t ncclLaunchSuffix = false ∧ t ≠ "-np") :
    segmentArgs (m :: (pre ++ "-x" :: v :: post)) =
      .error (.configConflict mscclXmlFilesMsg) ∧
    ∃ a b, mscclXmlFilesMsg = a ++ "MSCCL_XML_FILES" ++ b := by
  constructor
  · rw [segmentArgs_cons, hmp]
    simp only [Bool.not_true, Bool.false_eq_true, if_false]
    rw [scan_reaches_conflict pre.length pre [] none v post le_rfl hpre hv]
  · exact ⟨"Error: ",
      " environment variable should not be set in the mpirun command line since the --directory argument will be used instead.",
      rfl⟩

/-- C7 witness: with one harmless launcher option before the pair, the
    conflict is detected and reported. -/
theorem c7_config_conflict_witness :
    segmentArgs ["mpirun", "-a", "-x", "MSCCL_XML_FILES=foo", "b/nccl-tests/build"] =
      .error (.configConflict mscclXmlFilesMsg) ∧
    ∃ a b, mscclXmlFilesMsg = a ++ "MSCCL_XML_FILES" ++ b :=
  c7_config_conflict "mpirun" "MSCCL_XML_FILES=foo" ["-a"] ["b/nccl-tests/build"]
    (by decide) (by decide) (by decide)

/-! ## Benchmark Runner: collective mapping (bench.py, run_benchmark, lines 317-343) -/

/-- The collective-to-benchmark-binary table of run_benchmark (bench.py
    lines 334-341): a closed case-insensitive mapping; any other collective
    raises (the raise expression of line 341 itself references the undefined
    name mscclAlgorithmNamePrefix, so the concrete Python exception is a
    NameError rather than the intended message, but either way the run fails;
    both are modelled as the unsupported-algorithm failure). -/
def ncclAlgorithmOf (coll : String) : Except MainErr String :=
  if pyLower coll = "allreduce" then .ok "all_reduce"
  else if pyLower coll = "allgather" then .ok "all_gather"
  else if pyLower coll = "alltoall" then .ok "all_to_all"
  else .error (.unsupportedAlgorithm coll)

/-- ncclPerfTest = ncclAlgorithm + "_perf" (bench.py line 343). -/
def ncclPerfTestOf (coll : String) : Except MainErr String :=
  (ncclAlgorithmOf coll).map (fun a => a ++ "_perf")

/-- C4: the Runner maps the collective names case-insensitively through a
    closed table — allgather to a benchmark-binary name containing
    all_gather, allreduce to all_reduce, alltoall to all_to_all — and fails
    with the unsupported-algorithm error for every collective outside the
    table. -/
theorem c4_collective_mapping (coll : String) :
    (pyLower coll = "allgather" →
      ncclPerfTestOf coll = .ok "all_gather_perf" ∧
      ∃ a b, "all_gather_perf" = a ++ "all_gather" ++ b) ∧
    (pyLower coll = "allreduce" →
      ncclPerfTestOf coll = .ok "all_reduce_perf" ∧
      ∃ a b, "all_reduce_perf" = a ++ "all_reduce" ++ b) ∧
    (pyLower coll = "alltoall" →
      ncclPerfTestOf coll = .ok "all_to_all_perf" ∧
      ∃ a b, "all_to_all_perf" = a ++ "all_to_all" ++ b) ∧
    (pyLower coll ≠ "allreduce" → pyLower coll ≠ "allgather" → pyLower coll ≠ "alltoall" →
      ncclPerfTestOf coll = .error (.unsupportedAlgorithm coll)) := by
  refine ⟨?_, ?_, ?_, ?_⟩
  · intro h
    refine ⟨?_, "", "_perf", by decide⟩
    have h1 : pyLower coll ≠ "allreduce" := by
      rw [h]
      decide
    simp [ncclPerfTestOf, ncclAlgorithmOf, h, h1]
    rfl
  · intro h
    refine ⟨?_, "", "_perf", by decide⟩
    simp [ncclPerfTestOf, ncclAlgorithmOf, h]
    rfl
  · intro h
    refine ⟨?_, "", "_perf", by decide⟩
    have h1 : pyLower coll ≠ "allreduce" := by
      rw [h]
      decide
    have h2 : pyLower coll ≠ "allgather" := by
      rw [h]
      decide
    simp [ncclPerfTestOf, ncclAlgorithmOf, h, h1, h2]
    rfl
  · intro h1 h2 h3
    simp [ncclPerfTestOf, ncclAlgorithmOf, h1, h2, h3]
    rfl

/-- C4 witness: allgather maps to all_gather_perf and the unknown collective
    fails. -/
theorem c4_collective_mapping_witness :
    ncclPerfTestOf "allgather" = .ok "all_gather_perf" ∧
    ncclPerfTestOf "unknown" = .error (.unsupportedAlgorithm "unknown") :=
  ⟨((c4_collective_mapping "allgather").1 (by decide)).1,
   (c4_collective_mapping "unknown").2.2.2 (by decide) (by decide) (by decide)⟩

/-! ## Result Writer and dry-run pipeline (bench.py, main and run_benchmark) -/

/-- The attribute mapping of the algo root element returned by
    parse_msccl_xml and used by main and run_benchmark.  The XML parsing
    itself is a library call (xml.etree), so descriptor attributes enter the
    model directly as this record. -/
structure AlgoAttrs where
  name : String
  nchannels : String
  nchunksperloop : String
  proto : String
  ngpus : String
  coll : String
  inplace : String
deriving DecidableEq

/-- The attributes of the exampleMCCLInput literal (bench.py lines 500-529),
    substituted for every descriptor in test mode (line 224-225). -/
def exampleAttrs : AlgoAttrs :=
  ⟨"Allgather(n=16)-DistributedRelayedSwitch(local=DGX1,copies=2)-steps=20-gurobisol-improve-1630536923",
   "8", "128", "Simple", "16", "allgather", "1"⟩

/-- The canned benchmark output exampleOutput of bench.py lines 532-562,
    as its list of lines (the literal starts with a newline, hence the
    leading empty line). -/
def exampleOutputLines : List String := [
  "",
  "[1,5]<stdout>:az-eus-v100-32gb-5-worker-zphjiy:18101:18135 [5] NCCL INFO comm 0x7f3804000fa0 rank 5 nranks 16 cudaDev 5 busId 3bfd00000 - Init COMPLETE",
  "[1,0]<stdout>:NCCL version 2.12.12.MSCCL.0.7.3+cuda11.6",
  "[1,2]<stdout>:az-eus-v100-32gb-5-worker-zphjiy:18098:18143 [2] NCCL INFO comm 0x7f0ec0000fa0 rank 2 nranks 16 cudaDev 2 busId d34d00000 - Init COMPLETE",
  "[1,4]<stdout>:az-eus-v100-32gb-5-worker-zphjiy:18093:18141 [4] NCCL INFO comm 0x7f76ac000fa0 rank 4 nranks 16 cudaDev 4 busId bd1000000 - Init COMPLETE",
  "[1,0]<stdout>:az-eus-v100-32gb-5-worker-zphjiy:18075:18131 [0] NCCL INFO comm 0x7f26f0000fa0 rank 0 nranks 16 cudaDev 0 busId f6a800000 - Init COMPLETE",
  "[1,0]<stdout>:#",
  "[1,0]<stdout>:#                                                              out-of-place                       in-place",
  "[1,0]<stdout>:#       size         count      type   redop    root     time   algbw   busbw #wrong     time   algbw   busbw #wrong",
  "[1,0]<stdout>:#        (B)    (elements)                               (us)  (GB/s)  (GB/s)            (us)  (GB/s)  (GB/s)",
  "[1,0]<stdout>:az-eus-v100-32gb-5-worker-zphjiy:18075:18075 [0] NCCL INFO Launch mode Parallel",
  "[1,0]<stdout>:        1024           256     float     sum      -1    75.18    0.01    0.03      0    78.30    0.01    0.02      0",
  "[1,0]<stdout>:        2048           512     float     sum      -1    79.54    0.03    0.05      0    82.56    0.02    0.05      0",
  "[1,0]<stdout>:        4096          1024     float     sum      -1    84.29    0.05    0.09      0    116.1    0.04    0.07      0",
  "[1,0]<stdout>:        8192          2048     float     sum      -1    115.0    0.07    0.13      0    111.7    0.07    0.14      0",
  "[1,0]<stdout>:       16384          4096     float     sum      -1    129.4    0.13    0.24      0    126.7    0.13    0.24      0",
  "[1,0]<stdout>:       32768          8192     float     sum      -1    208.2    0.16    0.30      0    205.5    0.16    0.30      0",
  "[1,0]<stdout>:       65536         16384     float     sum      -1    313.7    0.21    0.39      0    340.9    0.19    0.36      0",
  "[1,0]<stdout>:      131072         32768     float     sum      -1    297.7    0.44    0.83      0    297.5    0.44    0.83      0",
  "[1,0]<stdout>:      262144         65536     float     sum      -1    521.7    0.50    0.94      0    503.8    0.52    0.98      0",
  "[1,0]<stdout>:      524288        131072     float     sum      -1    895.8    0.59    1.10      0    901.9    0.58    1.09      0",
  "[1,0]<stdout>:     1048576        262144     float     sum      -1   1255.6    0.84    1.57      0   1215.6    0.86    1.62      0",
  "[1,0]<stdout>:     2097152        524288     float     sum      -1   1878.7    1.12    2.09      0   1876.8    1.12    2.10      0",
  "[1,0]<stdout>:     4194304       1048576     float     sum      -1   2246.7    1.87    3.50      0   2229.5    1.88    3.53      0",
  "[1,0]<stdout>:     8388608       2097152     float     sum      -1   4018.2    2.09    3.91      0   4017.9    2.09    3.91      0",
  "[1,0]<stdout>:    16777216       4194304     float     sum      -1   7561.5    2.22    4.16      0   7561.6    2.22    4.16      0",
  "[1,0]<stdout>:    33554432       8388608     float     sum      -1    13589    2.47    4.63      0    13595    2.47    4.63      0",
  "[1,0]<stdout>:    67108864      16777216     float     sum      -1    26102    2.57    4.82      0    26108    2.57    4.82      0",
  "[1,0]<stdout>:   134217728      33554432     float     sum      -1    51259    2.62    4.91      0    51135    2.62    4.92      0",
  "[1,0]<stdout>:   268435456      67108864     float     sum      -1   101295    2.65    4.97      0   101395    2.65    4.96      0"]
/-- Join lines back into file contents, each line newline-terminated. -/
def joinLines (ls : List String) : String :=
  ls.foldr (fun l acc => l ++ "\n" ++ acc) ""

/-- The canned output as one string (what test mode writes to the files). -/
def exampleOutput : String :=
  joinLines exampleOutputLines

/-- The version needle with the trailing space, as used by the split of
    bench.py line 246. -/
def ncclVersionNeedle : List Char := "NCCL version ".data

/-- The characters after the first occurrence of the needle; none when the
    needle does not occur. -/
def splitAfterVersion : List Char → Option (List Char)
  | [] => none
  | c :: cs =>
    if ncclVersionNeedle.isPrefixOf (c :: cs) then
      some ((c :: cs).drop ncclVersionNeedle.length)
    else
      splitAfterVersion cs

/-- The characters before the next occurrence of the needle (the end of
    Python split element 1). -/
def takeUntilVersionNeedle : List Char → List Char
  | [] => []
  | c :: cs =>
    if ncclVersionNeedle.isPrefixOf (c :: cs) then []
    else c :: takeUntilVersionNeedle cs

/-- The NCCL-version extraction of bench.py lines 242-247: the first line
    containing "NCCL version" yields split("NCCL version ")[1].strip().
    A line containing the bare needle but not the space-suffixed one would
    raise IndexError in the source; it cannot arise in the modelled outputs
    and is mapped to none, as is an output with no version line (for which
    the source would leave the variable unbound or stale — see spec 9). -/
def ncclVersionOf : List String → Option String
  | [] => none
  | l :: ls =>
    if containsSub "NCCL version".data l.data then
      match splitAfterVersion l.data with
      | some rest => some (pyStrip (String.mk (takeUntilVersionNeedle rest)))
      | none => none
    else
      ncclVersionOf ls

/-- One CSV row of the Result Writer (the write of bench.py lines 265-277). -/
structure ResultRow where
  coll : String
  filt : String
  timeOfTest : String
  ngpus : String
  proto : String
  library : String
  ncclVersion : String
  place : Nat
  size : String
  time : String
  algoName : String
  fileName : String
deriving DecidableEq

/-- The text line written for a row: the twelve separator-joined fields,
    newline-terminated, in the order of the write of lines 265-277. -/
def ResultRow.toLine (r : ResultRow) (separator : String) : String :=
  r.coll ++ separator ++ r.filt ++ separator ++ r.timeOfTest ++ separator ++ r.ngpus
    ++ separator ++ r.proto ++ separator ++ r.library ++ separator ++ r.ncclVersion
    ++ separator ++ toString r.place ++ separator ++ r.size ++ separator ++ r.time
    ++ separator ++ r.algoName ++ separator ++ r.fileName ++ "\n"

/-- format_header_row (bench.py lines 482-496). -/
def format_header_row (separator : String) : String :=
  "Collective" ++ separator ++ "Filter" ++ separator ++ "TimeOfTest" ++ separator
    ++ "nGPUs" ++ separator ++ "Protocol" ++ separator ++ "Library" ++ separator
    ++ "NcclVersion" ++ separator ++ "InPlace" ++ separator ++ "Size" ++ separator
    ++ "Time" ++ separator ++ "MSCCL_Algo_Name" ++ separator ++ "MSCCL_File" ++ "\n"

/-- The newly created results file (bench.py lines 201-205, then appends):
    the fixed header row followed by the row lines. -/
def newResultsFileLines (rows : List ResultRow) : List String :=
  format_header_row "\t" :: rows.map (fun r => r.toLine "\t")

/-- The skip condition of bench.py line 261, with the actual Python operator
    precedence: (library == "MSCCL" and (place == 0 and in_place == 1)) or
    (place == 1 and in_place == 0). -/
def skipPlace (library : String) (place : Nat) (inPlace : Int) : Bool :=
  (library == "MSCCL" && (place == 0 && inPlace == 1)) || (place == 1 && inPlace == 0)

/-- Rows contributed by one kept output file (bench.py lines 241-277):
    extract the NCCL version, parse the log, classify the library from the
    output-file name, and for each record write the non-skipped places in
    the order 0 then 1 (the iteration order of the Python set for the small
    ints 0 and 1).  The time column is the in-place field for place 1 and
    the out-of-place field for place 0 (line 274). -/
def rowsForOutputFile (attrs : AlgoAttrs) (filt timeOfTest fileName outName contents : String) :
    Except MainErr (List ResultRow) := do
  let fileLines := splitLines contents
  let nccl_version := (ncclVersionOf fileLines).getD ""
  let recs ← parse_test_log fileLines
  let library := if pyContains outName "msccl_result" then "MSCCL" else "NCCL"
  let rowss ← recs.mapM (fun rec => do
    let inPlace ← match pyInt attrs.inplace with
      | some n => Except.ok n
      | none => Except.error MainErr.valueError
    Except.ok (([0, 1].filter (fun p => !skipPlace library p inPlace)).map (fun p =>
      (⟨attrs.coll, filt, timeOfTest, attrs.ngpus, attrs.proto, library, nccl_version, p,
        rec.size, if p == 1 then rec.ip else rec.oop, attrs.name, fileName⟩ : ResultRow))))
  Except.ok rowss.flatten

/-- The failure classification of one output file (bench.py lines 389-391):
    a case-insensitive NCCL WARN or NCCL ERROR marker fails the run. -/
def warnErrFound (contents : String) : Bool :=
  pyContains (pyUpper contents) "NCCL WARN" || pyContains (pyUpper contents) "NCCL ERROR"

/-- The output-file classification loop of bench.py lines 385-399: the nccl
    file is kept unless a warning marker is present; the msccl file
    additionally requires the Parsed MSCCL confirmation marker. -/
def classifyOutputs (ncclName ncclContents mscclName mscclContents : String) :
    List (String × String) :=
  (if warnErrFound ncclContents then [] else [(ncclName, ncclContents)]) ++
  (if warnErrFound mscclContents then []
   else if !pyContains mscclContents "Parsed MSCCL" then []
   else [(mscclName, mscclContents)])

/-- run_benchmark (bench.py lines 290-402) reduced to its observable effect
    on the result rows: the collective must be in the closed table (the
    command lines built from it go to os.system, outside the model), the two
    output files are produced (canned contents in test mode,
    environment-supplied contents in run mode) and classified. -/
def run_benchmark (attrs : AlgoAttrs) (fileName ncclContents mscclContents : String) :
    Except MainErr (List (String × String)) := do
  let _ ← ncclAlgorithmOf attrs.coll
  Except.ok (classifyOutputs (fileName ++ "_nccl_result.txt") ncclContents
    (fileName ++ "_msccl_result.txt") mscclContents)

/-- The marker written at the head of the msccl output file in test mode
    (bench.py line 376). -/
def mscclTestMarker (fileName : String) : String :=
  "File " ++ fileName ++ " Parsed MSCCL (write this to test validation that the file contains the string Parsed MSSCL)"

/-- Processing of one matching descriptor file inside the main loop
    (bench.py lines 224-277): device-count validation, run_benchmark, then
    rows from each kept output file in order. -/
def processDescriptor (npValue : Option String) (filt timeOfTest : String)
    (attrs : AlgoAttrs) (fileName ncclContents mscclContents : String) :
    Except MainErr (List ResultRow) := do
  let _ ← npCheck npValue attrs.ngpus
  let outs ← run_benchmark attrs fileName ncclContents mscclContents
  let rowss ← outs.mapM (fun p => rowsForOutputFile attrs filt timeOfTest fileName p.1 p.2)
  Except.ok rowss.flatten

/-- Test-mode descriptor processing: the attributes come from
    exampleMCCLInput regardless of the file contents (lines 224-225), and
    both output files receive the canned exampleOutput, the msccl one
    prefixed with the marker (lines 357-360 and 374-378). -/
def processDescriptorTest (npValue : Option String) (filt timeOfTest fileName : String) :
    Except MainErr (List ResultRow) :=
  processDescriptor npValue filt timeOfTest exampleAttrs fileName exampleOutput
    (mscclTestMarker fileName ++ exampleOutput)

/-- Run-mode descriptor processing: the attributes are parsed from the
    descriptor file and the output files are written by the launched
    benchmark; both are supplied by the environment (outputsOf is keyed by
    output-file name). -/
def processDescriptorRun (npValue : Option String) (filt timeOfTest : String)
    (attrs : AlgoAttrs) (fileName : String) (outputsOf : String → String) :
    Except MainErr (List ResultRow) :=
  processDescriptor npValue filt timeOfTest attrs fileName
    (outputsOf (fileName ++ "_nccl_result.txt"))
    (outputsOf (fileName ++ "_msccl_result.txt"))

/-- The descriptor loop of bench.py lines 216-277 in run mode, over the
    files matching the filter (in directory order) with their parsed
    attributes: row lists accumulate across iterations into the append-only
    results file; the first failing descriptor stops the whole run, keeping
    the rows appended by the earlier iterations. -/
def mainLoopRun (npValue : Option String) (filt timeOfTest : String) :
    List (String × AlgoAttrs) → (String → String) → List ResultRow × Option MainErr
  | [], _ => ([], none)
  | (fn, attrs) :: files, outputsOf =>
    match processDescriptorRun npValue filt timeOfTest attrs fn outputsOf with
    | .error e => ([], some e)
    | .ok rows =>
      let r := mainLoopRun npValue filt timeOfTest files outputsOf
      (rows ++ r.1, r.2)

/-- End-to-end run-mode model: segmentation, then the descriptor loop; a
    segmentation failure terminates before the loop with no rows written. -/
def mainModelRun (toks : List String) (filt timeOfTest : String)
    (files : List (String × AlgoAttrs)) (outputsOf : String → String) :
    List ResultRow × Option MainErr :=
  match segmentArgs toks with
  | .error e => ([], some (.seg e))
  | .ok segs => mainLoopRun segs.npValue filt timeOfTest files outputsOf

/-- A minimal plausible benchmark output: one version line and one data
    line. -/
def tinyOutput : String :=
  "\n[1,0]<stdout>:NCCL version 2.12.12\n" ++ taggedDataLine ++ "\n"

/-- A run-mode descriptor with coll allreduce, inplace 0 and 16 GPUs. -/
def attrsAllreduce0 : AlgoAttrs :=
  ⟨"Allreduce-example", "8", "128", "Simple", "16", "allreduce", "0"⟩

/-- A run-mode descriptor identical to the example but declaring 8 GPUs. -/
def attrsNgpus8 : AlgoAttrs :=
  ⟨"Allgather-example", "8", "128", "Simple", "8", "allgather", "1"⟩

/-- Unfolding lemma for the descriptor loop on an empty file list. -/
theorem mainLoopRun_nil (np : Option String) (filt tot : String) (out : String → String) :
    mainLoopRun np filt tot [] out = ([], none) := rfl

/-- Unfolding lemma for the descriptor loop on a non-empty file list. -/
theorem mainLoopRun_cons (np : Option String) (filt tot fn : String) (attrs : AlgoAttrs)
    (files : List (String × AlgoAttrs)) (out : String → String) :
    mainLoopRun np filt tot ((fn, attrs) :: files) out =
      match processDescriptorRun np filt tot attrs fn out with
      | .error e => ([], some e)
      | .ok rows =>
        let r := mainLoopRun np filt tot files out
        (rows ++ r.1, r.2) := by
  rw [mainLoopRun.eq_def]

set_option maxRecDepth 100000

/-! ## Claims about the Result Writer and failure termination -/

/-- C3 counterexample: in dry-run mode with a filter matching exactly one
    descriptor file, each of the two output files parses to 19 records, and
    the Result Writer appends 57 rows — not 2 times the number of parsed log
    lines under either reading (2 times 38 = 76, or 2 times 19 = 38), and
    not one in-place and one out-of-place row per parsed line.  (The claimed
    descriptor attributes cannot occur in dry-run mode at all: line 225
    substitutes the example attributes — coll allgather, inplace 1 — for
    every descriptor file.) -/
theorem c3_counterexample :
    (processDescriptorTest none "f" "t" "algo.xml").map List.length = .ok 57 ∧
    (parse_test_log (splitLines exampleOutput)).map List.length = .ok 19 ∧
    (parse_test_log (splitLines (mscclTestMarker "algo.xml" ++ exampleOutput))).map
      List.length = .ok 19 ∧
    (57 : Nat) ≠ 2 * (19 + 19) ∧ (57 : Nat) ≠ 2 * 19 :=
  ⟨rfl, rfl, rfl, by decide, by decide⟩

/-- C3 (amended): in dry-run mode the descriptor attributes are replaced by
    the built-in example (coll allgather, ngpus 16, inplace 1); with a
    filter matching exactly one descriptor file the run appends 57 rows —
    for each of the 19 data lines of the canned output, one out-of-place and
    one in-place row from the baseline file and one in-place row from the
    MSCCL file — and the newly created results file starts with the fixed
    header row.  A descriptor with inplace 0 (reachable only in run mode)
    yields only out-of-place rows — the skip condition of line 261, with
    Python operator precedence, suppresses the in-place row even for the
    baseline library, against the intent stated in the comment of lines
    256-259. -/
theorem c3_dry_run_rows :
    (processDescriptorTest none "f" "t" "algo.xml").map
      (fun rows => (rows.length, (rows.filter (fun r => r.place == 0)).length,
        (rows.filter (fun r => r.place == 1)).length)) = .ok (57, 19, 38) ∧
    (∀ rows, (newResultsFileLines rows).head? = some (format_header_row "\t")) ∧
    (processDescriptorRun none "f" "t" attrsAllreduce0 "algo.xml"
        (fun _ => tinyOutput)).map
      (fun rows => (rows.length, (rows.filter (fun r => r.place == 0)).length,
        (rows.filter (fun r => r.place == 1)).length)) = .ok (1, 1, 0) :=
  ⟨rfl, fun _ => rfl, rfl⟩

/-- C5 counterexample: in run mode with -np 16 and two matching descriptor
    files, the first (ngpus 16) passes validation and writes 2 rows; the
    second (ngpus 8) fails the device-count validation and terminates the
    run — but the 2 rows written for the earlier file remain, so the program
    did not terminate without writing any result rows. -/
theorem c5_counterexample :
    (mainModelRun ["mpirun", "-np", "16", "b/nccl-tests/build"] "f" "t"
      [("f1", exampleAttrs), ("f2", attrsNgpus8)] (fun _ => tinyOutput)).2 =
        some (.validation "16" "8") ∧
    ((mainModelRun ["mpirun", "-np", "16", "b/nccl-tests/build"] "f" "t"
      [("f1", exampleAttrs), ("f2", attrsNgpus8)] (fun _ => tinyOutput)).1).length = 2 ∧
    (2 : Nat) ≠ 0 :=
  ⟨rfl, rfl, by decide⟩

/-- C5 (amended): a segmentation failure (missing launcher, missing
    benchmark-binary anchor, reserved-variable conflict) terminates the run
    before the descriptor loop, with no result rows written; a failure
    inside the loop — such as the device-count validation — terminates the
    run at the failing descriptor, writing no rows for it or any later file,
    but the rows already appended for earlier matching descriptor files
    remain in the results file. -/
theorem c5_failure_termination :
    (∀ (toks : List String) (filt tot : String) (files : List (String × AlgoAttrs))
      (out : String → String) (e : SegError),
      segmentArgs toks = .error e →
      mainModelRun toks filt tot files out = ([], some (.seg e))) ∧
    (∀ (np : Option String) (filt tot : String) (pre : List (String × AlgoAttrs))
      (fn : String) (attrs : AlgoAttrs) (post : List (String × AlgoAttrs))
      (out : String → String) (e : MainErr),
      (∀ f ∈ pre, ∃ rs, processDescriptorRun np filt tot f.2 f.1 out = .ok rs) →
      processDescriptorRun np filt tot attrs fn out = .error e →
      mainLoopRun np filt tot (pre ++ (fn, attrs) :: post) out =
        ((mainLoopRun np filt tot pre out).1, some e)) := by
  constructor
  · intro toks filt tot files out e h
    simp [mainModelRun, h]
  · intro np filt tot pre fn attrs post out e
    induction pre with
    | nil =>
      intro _ hbad
      simp [mainLoopRun_cons, mainLoopRun_nil, hbad]
    | cons f fs ih =>
      intro hpre hbad
      obtain ⟨fn1, a1⟩ := f
      obtain ⟨rs, hrs⟩ := hpre (fn1, a1) (List.mem_cons_self _ _)
      have ih' := ih (fun g hg => hpre g (List.mem_cons_of_mem _ hg)) hbad
      simp only [List.cons_append, mainLoopRun_cons, hrs, ih']

/-- C5 witness: a remainder whose first token does not end in mpirun fails
    segmentation and writes nothing; with -np 16, one passing descriptor
    before a failing one keeps exactly the passing rows. -/
theorem c5_failure_termination_witness :
    mainModelRun ["x"] "f" "t" [] (fun _ => "") = ([], some (.seg .notMpirun)) ∧
    mainLoopRun (some "16") "f" "t" [("f1", exampleAttrs), ("f2", attrsNgpus8)]
        (fun _ => tinyOutput) =
      ((mainLoopRun (some "16") "f" "t" [("f1", exampleAttrs)] (fun _ => tinyOutput)).1,
        some (.validation "16" "8")) :=
  ⟨c5_failure_termination.1 ["x"] "f" "t" [] (fun _ => "") .notMpirun rfl,
   c5_failure_termination.2 (some "16") "f" "t" [("f1", exampleAttrs)] "f2" attrsNgpus8 []
     (fun _ => tinyOutput) (.validation "16" "8")
     (by
       intro f hf
       simp only [List.mem_singleton] at hf
       subst hf
       exact ⟨_, rfl⟩)
     rfl⟩

/-! ## Anchor search over the full argument vector (bench.py lines 57-64, 119) -/

/-- The enumerate loop of bench.py lines 57-61, carrying the current index. -/
def findMpirunIndexAux : List String → Nat → Option Nat
  | [], _ => none
  | a :: rest, i =>
    if pyEndsWith a "mpirun" then some i else findMpirunIndexAux rest (i + 1)

/-- The index of the first element of the entire argument vector (argv[0]
    included) that ends with "mpirun". -/
def findMpirunIndex (argv : List String) : Option Nat :=
  findMpirunIndexAux argv 0

/-- script_args = sys.argv[1:mpirun_index] (bench.py line 64; a missing
    anchor makes the slice end None, i.e. the whole tail). -/
def scriptArgs (argv : List String) : List String :=
  match findMpirunIndex argv with
  | some i => (argv.take i).drop 1
  | none => argv.drop 1

/-- remainder_args = sys.argv[mpirun_index:] (bench.py line 119). -/
def remainderArgs (argv : List String) : List String :=
  match findMpirunIndex argv with
  | some i => argv.drop i
  | none => argv

/-- The search finds the first suffix-matching element past the running
    index. -/
theorem findMpirunIndexAux_spec :
    ∀ (argv : List String) (k i : Nat),
      findMpirunIndexAux argv k = some i →
      ∃ pre anchor post,
        argv = pre ++ anchor :: post ∧
        pre.length = i - k ∧ k ≤ i ∧
        pyEndsWith anchor "mpirun" = true ∧
        ∀ t ∈ pre, pyEndsWith t "mpirun" = false := by
  intro argv
  induction argv with
  | nil =>
    intro k i h
    exact Option.noConfusion h
  | cons a rest ih =>
    intro k i h
    by_cases ha : pyEndsWith a "mpirun" = true
    · rw [findMpirunIndexAux, if_pos ha] at h
      obtain rfl := Option.some.inj h
      exact ⟨[], a, rest, rfl, by simp, le_rfl, ha, by simp⟩
    · simp only [Bool.not_eq_true] at ha
      rw [findMpirunIndexAux, if_neg (by simp [ha])] at h
      obtain ⟨pre, anchor, post, heq, hlen, hk, hanch, hall⟩ := ih (k + 1) i h
      refine ⟨a :: pre, anchor, post, by simp [heq], by simp [hlen]; omega, by omega, hanch, ?_⟩
      intro t ht
      rcases List.mem_cons.mp ht with rfl | ht'
      · exact ha
      · exact hall t ht'

/-- C10: for every argument vector on which the anchor search succeeds, the
    launcher anchor is the first element of the entire vector (the program
    name at argv[0] and the values of the script's own named options
    included) that ends with "mpirun": everything strictly between argv[0]
    and the anchor becomes the script options handed to argparse, and
    everything from the anchor on becomes the remainder for segmentation —
    so a script-option value ending in "mpirun" is silently taken as the
    anchor (see the witness). -/
theorem c10_anchor_split (argv : List String) (i : Nat)
    (h : findMpirunIndex argv = some i) :
    ∃ pre anchor post,
      argv = pre ++ anchor :: post ∧
      pre.length = i ∧
      pyEndsWith anchor "mpirun" = true ∧
      (∀ t ∈ pre, pyEndsWith t "mpirun" = false) ∧
      scriptArgs argv = pre.drop 1 ∧
      remainderArgs argv = anchor :: post := by
  obtain ⟨pre, anchor, post, heq, hlen, _, hanch, hall⟩ :=
    findMpirunIndexAux_spec argv 0 i h
  rw [Nat.sub_zero] at hlen
  refine ⟨pre, anchor, post, heq, hlen, hanch, hall, ?_, ?_⟩
  · rw [scriptArgs, h, heq, ← hlen]
    simp only
    rw [List.take_left]
  · rw [remainderArgs, h, heq, ← hlen]
    simp only
    rw [List.drop_left]

/-- C10 witness: in this vector the value of the --filter option ends in
    "mpirun" and is taken as the anchor (index 2), ahead of the intended
    launcher token. -/
theorem c10_anchor_split_witness :
    ∃ pre anchor post,
      ["bench.py", "--filter", "foompirun", "mpirun", "b/nccl-tests/build"] =
        pre ++ anchor :: post ∧
      pre.length = 2 ∧
      pyEndsWith anchor "mpirun" = true ∧
      (∀ t ∈ pre, pyEndsWith t "mpirun" = false) ∧
      scriptArgs ["bench.py", "--filter", "foompirun", "mpirun", "b/nccl-tests/build"] =
        pre.drop 1 ∧
      remainderArgs ["bench.py", "--filter", "foompirun", "mpirun", "b/nccl-tests/build"] =
        anchor :: post :=
  c10_anchor_split ["bench.py", "--filter", "foompirun", "mpirun", "b/nccl-tests/build"]
    2 (by rfl)
